import Mathlib

/-!
Verification development for the labor-distribution summary program
(src/salary_app.py).  The program takes a decoded tabular file, removes
rows that represent totals, builds a Full Name column, classifies each row
as Salary, Benefit or Other from the Gl Account code, parses the Amount
column and produces two grouped summary tables plus the cleaned table.

Modelling conventions:
  - a cell is `Option String`; `none` models a pandas NaN (missing) cell;
  - a Row is a total function from column name to cell, and a Table is a
    column list plus a row list; a column is present iff its name is in
    the column list (absent columns are never consulted by the code);
  - Python floats are modelled by `PyFloat` (NaN, signed infinity, or an
    exact rational); the numeric behaviour the claims exercise (parsing
    currency strings, NaN and infinity propagation, two-decimal rendering)
    is preserved, while finite arithmetic is exact rather than binary64;
  - `process_dataframe` returns `Option`; `none` models the ValueError
    raised by `astype(float)` when an Amount cell fails to parse.
-/

namespace SalaryApp

/-- A cell of the table: `none` models a missing value (pandas NaN). -/
abbrev Cell := Option String

/-- A row: total map from column name to cell.  Columns not present in the
table are simply never consulted. -/
abbrev Row := String → Cell

/-- A table: ordered column list plus ordered row list. -/
structure Table where
  cols : List String
  rows : List Row

/-- Coercion of a cell to text, as `astype(str)` does: NaN becomes "nan". -/
def cellStr : Cell → String
  | none => "nan"
  | some s => s

/-- Whether `pat` occurs as a contiguous run somewhere in the second list. -/
def scanContains (pat : List Char) : List Char → Bool
  | [] => pat.isEmpty
  | c :: rest => pat.isPrefixOf (c :: rest) || scanContains pat rest

/-- Case-insensitive substring test for "Total", as
`str.contains("Total", case=False)` with a plain (non-regex-special)
pattern. -/
def containsTotal (s : String) : Bool :=
  scanContains "total".toList (s.toList.map Char.toLower)

/-- The specific columns checked for total markers (source lines 35-40). -/
def total_check_cols : List String :=
  ["Fiscal Year & Fiscal Period (Combined)",
   "Funds Center Name",
   "Funds Center",
   "Employment Status & Description (Combined)"]

/-- The total-row mask for one row (source lines 33-52): true when one of
the specific columns, if present, contains "Total" (any case), or when any
cell of the row does. -/
def rowIsTotal (cols : List String) (r : Row) : Bool :=
  total_check_cols.any (fun c => decide (c ∈ cols) && containsTotal (cellStr (r c)))
  || cols.any (fun c => containsTotal (cellStr (r c)))

/-- Rows kept after the total filter, in original order (source line 54). -/
def keptRows (t : Table) : List Row :=
  t.rows.filter (fun r => !rowIsTotal t.cols r)

/-- Stage 1: drop total rows (source lines 33-54). -/
def filterTotals (t : Table) : Table :=
  ⟨t.cols, keptRows t⟩

/-- Append a column name if absent, as a pandas column assignment does. -/
def appendIfAbsent (cols : List String) (c : String) : List String :=
  if c ∈ cols then cols else cols ++ [c]

/-- Per-row update of stage 2 (source lines 57-64): when both name columns
exist, Full Name is first + " " + last with NaN parts as empty strings;
otherwise, when a Full Name column already exists it is untouched, and
when it does not it is set to the empty string. -/
def fullNameUpd (cols : List String) (r : Row) : Row := fun c =>
  if c = "Full Name" then
    (if "First Name" ∈ cols ∧ "Last Name" ∈ cols then
      some (((r "First Name").getD "") ++ " " ++ ((r "Last Name").getD ""))
    else if "Full Name" ∈ cols then r c
    else some "")
  else r c

/-- Column-list effect of stage 2: Full Name is created when absent, and
the two source name columns are dropped when both were present. -/
def fullNameCols (cols : List String) : List String :=
  if "First Name" ∈ cols ∧ "Last Name" ∈ cols then
    (appendIfAbsent cols "Full Name").filter
      (fun c => !(c == "First Name") && !(c == "Last Name"))
  else if "Full Name" ∈ cols then cols
  else cols ++ ["Full Name"]

/-- Stage 2: build the Full Name column (source lines 57-64). -/
def addFullName (t : Table) : Table :=
  ⟨fullNameCols t.cols, t.rows.map (fullNameUpd t.cols)⟩

/-- The classifier of source lines 67-74: coerce the code to text (NaN
becomes "nan"), strip leading zero characters, then test the "51" and
"52" prefixes. -/
def payment_type (gl_account : Cell) : String :=
  let account := (cellStr gl_account).toList.dropWhile (· == '0')
  if "51".toList.isPrefixOf account then "Salary"
  else if "52".toList.isPrefixOf account then "Benefit"
  else "Other"

/-- Per-row update of stage 3 (source lines 76-80): classify from the Gl
Account cell when that column exists, else assign "Other" to every row. -/
def paymentUpd (cols : List String) (r : Row) : Row := fun c =>
  if c = "Payment Type" then
    some (if "Gl Account" ∈ cols then payment_type (r "Gl Account") else "Other")
  else r c

/-- Column-list effect of stage 3. -/
def paymentCols (cols : List String) : List String :=
  appendIfAbsent cols "Payment Type"

/-- Stage 3: build the Payment Type column (source lines 76-80). -/
def addPaymentType (t : Table) : Table :=
  ⟨paymentCols t.cols, t.rows.map (paymentUpd t.cols)⟩

/-- The fixed preferred column order (source lines 84-104). -/
def desired_columns : List String :=
  ["Funds Center",
   "Funds Center Name",
   "Grant_Number",
   "Fund",
   "Person Id",
   "Pernr",
   "Full Name",
   "Employment Status & Description (Combined)",
   "Position Id",
   "Wage Type",
   "Symbolic Account",
   "Gl Account",
   "Org Unit Department",
   "Fiscal Year & Fiscal Period (Combined)",
   "In Period Date",
   "For Period Date",
   "Hours",
   "Payment Type",
   "Amount"]

/-- The preferred columns that are present, in preferred order (source
line 106). -/
def columns_in_df (cols : List String) : List String :=
  desired_columns.filter (fun c => decide (c ∈ cols))

/-- The loop of source lines 108-110 that would append "Full Name" and
"Payment Type" when absent from the preferred-present list. -/
def ensure_cols (cols : List String) : List String :=
  ["Full Name", "Payment Type"].foldl
    (fun acc c => if c ∉ acc ∧ c ∈ cols then acc ++ [c] else acc) (columns_in_df cols)

/-- Column reordering of source lines 106-115: present preferred columns
first in preferred order, then all remaining columns in original order. -/
def reorder_cols (cols : List String) : List String :=
  ensure_cols cols ++ cols.filter (fun c => decide (c ∉ ensure_cols cols))

/-- Stage 4: reorder the columns (source lines 106-115). -/
def reorderColumns (t : Table) : Table :=
  ⟨reorder_cols t.cols, t.rows⟩

/-- The table after classification, before reordering. -/
def stage3 (t : Table) : Table :=
  addPaymentType (addFullName (filterTotals t))

/-- The table after all four shaping stages. -/
def stage4 (t : Table) : Table :=
  reorderColumns (stage3 t)

/-! ## Python float values

A Python float is modelled as NaN, a signed infinity, or an exact
rational.  Finite arithmetic is exact where binary64 rounds; the claims
only exercise small decimal values, NaN and infinity propagation.  The
rational is carried as an explicit (numerator, denominator) pair so that
every arithmetic step is plain integer arithmetic. -/

/-- An exact fraction: integer numerator over integer denominator.  The
pairs built by the pipeline always have a positive power-of-ten
denominator; the pair is not reduced. -/
structure PyRat where
  num : Int
  den : Int
deriving DecidableEq

/-- The zero fraction. -/
def PyRat.zero : PyRat := ⟨0, 1⟩

/-- Cross-multiplication addition of fractions. -/
def PyRat.add (a b : PyRat) : PyRat :=
  ⟨a.num * b.den + b.num * a.den, a.den * b.den⟩

/-- Negation of a fraction. -/
def PyRat.neg (a : PyRat) : PyRat := ⟨-a.num, a.den⟩

/-- Model of a Python float value. -/
inductive PyFloat where
  | nan : PyFloat
  | pinf : Bool → PyFloat
  | val : PyRat → PyFloat
deriving DecidableEq

/-- NaN test. -/
def PyFloat.isNan : PyFloat → Bool
  | .nan => true
  | _ => false

/-- Addition of Python float values: NaN absorbs, infinities of equal sign
keep the sign, infinities of opposite signs give NaN, infinity absorbs
finite values. -/
def PyFloat.add : PyFloat → PyFloat → PyFloat
  | .nan, _ => .nan
  | .pinf _, .nan => .nan
  | .pinf a, .pinf b => if a = b then .pinf a else .nan
  | .pinf a, .val _ => .pinf a
  | .val _, .nan => .nan
  | .val _, .pinf b => .pinf b
  | .val a, .val b => .val (a.add b)

instance : Add PyFloat := ⟨PyFloat.add⟩

instance : Zero PyFloat := ⟨PyFloat.val PyRat.zero⟩

instance : AddCommMonoid PyFloat where
  add := PyFloat.add
  zero := PyFloat.val PyRat.zero
  add_assoc := by
    intro x y z
    show PyFloat.add (PyFloat.add x y) z = PyFloat.add x (PyFloat.add y z)
    cases x <;> cases y <;> cases z <;> try rfl
    case pinf.pinf.nan a b => by_cases h : a = b <;> simp [PyFloat.add, h]
    case pinf.pinf.pinf a b c =>
      by_cases hab : a = b
      · subst hab
        by_cases hbc : a = c <;> simp [PyFloat.add, hbc]
      · by_cases hbc : b = c
        · subst hbc; simp [PyFloat.add, hab]
        · simp [PyFloat.add, hab, hbc]
    case pinf.pinf.val a b q => by_cases h : a = b <;> simp [PyFloat.add, h]
    case val.pinf.pinf q a b => by_cases h : a = b <;> simp [PyFloat.add, h]
    case val.val.val a b c =>
      show PyFloat.val ((a.add b).add c) = PyFloat.val (a.add (b.add c))
      simp only [PyRat.add, PyFloat.val.injEq, PyRat.mk.injEq]
      constructor <;> ring
  zero_add := by
    intro x
    show PyFloat.add (PyFloat.val PyRat.zero) x = x
    cases x <;> try rfl
    case val q =>
      show PyFloat.val (PyRat.zero.add q) = PyFloat.val q
      cases q with
      | mk n d => simp [PyRat.add, PyRat.zero]
  add_zero := by
    intro x
    show PyFloat.add x (PyFloat.val PyRat.zero) = x
    cases x <;> try rfl
    case val q =>
      show PyFloat.val (q.add PyRat.zero) = PyFloat.val q
      cases q with
      | mk n d => simp [PyRat.add, PyRat.zero]
  add_comm := by
    intro x y
    show PyFloat.add x y = PyFloat.add y x
    cases x <;> cases y <;> try rfl
    case pinf.pinf a b =>
      by_cases h : a = b
      · subst h; rfl
      · simp [PyFloat.add, h, Ne.symm h]
    case val.val a b =>
      show PyFloat.val (a.add b) = PyFloat.val (b.add a)
      simp only [PyRat.add, PyFloat.val.injEq, PyRat.mk.injEq]
      constructor <;> ring
  nsmul := nsmulRec
  nsmul_zero := fun _ => rfl
  nsmul_succ := fun _ _ => rfl

/-! ## Parsing an amount string as Python float() does -/

/-- Whitespace stripped by Python float parsing. -/
def isSpaceChar (c : Char) : Bool :=
  c == ' ' || c == '\t' || c == '\n' || c == '\r' || c == '\x0b' || c == '\x0c'

/-- Strip leading and trailing whitespace. -/
def pyStrip (l : List Char) : List Char :=
  ((l.dropWhile isSpaceChar).reverse.dropWhile isSpaceChar).reverse

/-- Helper for digit groups: every underscore must sit between digits. -/
def digitGroupAux : List Char → Bool
  | [] => true
  | [c] => c.isDigit
  | c :: d :: rest =>
    ((c.isDigit && (d.isDigit || d == '_')) || (c == '_' && d.isDigit))
      && digitGroupAux (d :: rest)

/-- A nonempty run of decimal digits, possibly with single underscores
between digits (Python numeric-literal grouping). -/
def digitGroup (l : List Char) : Bool :=
  (match l.head? with
   | some c => c.isDigit
   | none => false)
  && digitGroupAux l

/-- Drop the underscore separators. -/
def stripU (l : List Char) : List Char :=
  l.filter (fun c => !(c == '_'))

/-- Numeric value of a digit run, most significant first. -/
def natOfDigits (l : List Char) : Nat :=
  l.foldl (fun n c => n * 10 + (c.toNat - 48)) 0

/-- Parse the mantissa part (integer part, optional point, fraction part)
as an exact fraction over a power of ten. -/
def parseMantissa (l : List Char) : Option PyRat :=
  match l.splitOn '.' with
  | [ip] => if digitGroup ip then some ⟨(natOfDigits (stripU ip) : Int), 1⟩ else none
  | [ip, fp] =>
    if (ip.isEmpty || digitGroup ip) && (fp.isEmpty || digitGroup fp)
        && !(ip.isEmpty && fp.isEmpty) then
      let fpd := stripU fp
      some ⟨((natOfDigits (stripU ip) * 10 ^ fpd.length + natOfDigits fpd : Nat) : Int),
        ((10 ^ fpd.length : Nat) : Int)⟩
    else none
  | _ => none

/-- Parse the exponent part after the letter e. -/
def parseExp (l : List Char) : Option Int :=
  match l with
  | '+' :: r => if digitGroup r then some ((natOfDigits (stripU r) : Int)) else none
  | '-' :: r => if digitGroup r then some (-((natOfDigits (stripU r) : Int))) else none
  | r => if digitGroup r then some ((natOfDigits (stripU r) : Int)) else none

/-- Apply a decimal exponent to a fraction. -/
def applyExp (q : PyRat) (e : Int) : PyRat :=
  if 0 ≤ e then ⟨q.num * ((10 ^ e.toNat : Nat) : Int), q.den⟩
  else ⟨q.num, q.den * ((10 ^ (-e).toNat : Nat) : Int)⟩

/-- Model of Python float(s): strip whitespace, optional sign, the words
nan, inf and infinity (any case), otherwise mantissa with optional
exponent.  Returns `none` where float() raises ValueError. -/
def pyFloatParse (s : String) : Option PyFloat :=
  let l := (pyStrip s.toList).map Char.toLower
  let signed : Bool × List Char :=
    match l with
    | '-' :: rest => (true, rest)
    | '+' :: rest => (false, rest)
    | _ => (false, l)
  let neg := signed.1
  let l2 := signed.2
  if l2 = "nan".toList then some .nan
  else if l2 = "inf".toList ∨ l2 = "infinity".toList then some (.pinf neg)
  else
    match l2.splitOn 'e' with
    | [m] => (parseMantissa m).map (fun q => .val (if neg then q.neg else q))
    | [m, e] =>
      match parseMantissa m, parseExp e with
      | some q, some ex => some (.val (if neg then (applyExp q ex).neg else applyExp q ex))
      | _, _ => none
    | _ => none

/-- Remove the literal dollar and comma characters, as the two
str.replace calls of source lines 123-124 do. -/
def cleanAmount (s : String) : String :=
  ⟨s.toList.filter (fun c => !(c == '$') && !(c == ','))⟩

/-- The numeric amount of one row (source lines 119-128): when the Amount
column is present its cell is coerced to text, cleaned and parsed (`none`
models the ValueError of astype(float)); when the column is absent the
amount is 0.0 for every row. -/
def rowAmount (cols : List String) (r : Row) : Option PyFloat :=
  if "Amount" ∈ cols then pyFloatParse (cleanAmount (cellStr (r "Amount")))
  else some (.val PyRat.zero)

/-! ## Currency rendering -/

/-- Round a fraction (with positive denominator) to the nearest integer,
ties to the even integer, as the Python fixed-point format specifier does
on exact values. -/
def roundHalfEven (q : PyRat) : Int :=
  let f : Int := Int.fdiv q.num q.den
  let r : Int := q.num - f * q.den
  if 2 * r < q.den then f
  else if q.den < 2 * r then f + 1
  else if f % 2 = 0 then f else f + 1

/-- Insert a comma after every three characters of a reversed digit run. -/
def groupRev : List Char → List Char
  | a :: b :: c :: d :: rest => a :: b :: c :: ',' :: groupRev (d :: rest)
  | l => l

/-- Render a summed total the way the f-string "$" + format(x, ",.2f")
does: dollar sign, optional minus, comma thousands grouping, exactly two
decimals; NaN renders as "$nan" and infinities as "$inf" or "$-inf". -/
def formatCurrency : PyFloat → String
  | .nan => "$nan"
  | .pinf negSign => if negSign then "$-inf" else "$inf"
  | .val q =>
    let n := roundHalfEven ⟨q.num * 100, q.den⟩
    let a := n.natAbs
    let unitsDigits := Nat.toDigits 10 (a / 100)
    let cents := a % 100
    "$" ++ (if n < 0 then "-" else "")
      ++ ⟨(groupRev unitsDigits.reverse).reverse⟩
      ++ "." ++ (if cents < 10 then "0" else "") ++ ⟨Nat.toDigits 10 cents⟩

/-! ## Grouped summation -/

/-- Sum of a list of float values as pandas groupby sum computes it:
missing (NaN) values are skipped, an all-NaN or empty selection sums
to 0.0. -/
def pandasSum (l : List PyFloat) : PyFloat :=
  (l.filter (fun v => !v.isNan)).sum

/-- Code-point lexicographic comparison of character lists. -/
def charListLe : List Char → List Char → Bool
  | [], _ => true
  | _ :: _, [] => false
  | a :: as, b :: bs => if a = b then charListLe as bs else decide (a < b)

/-- Code-point lexicographic order on strings: the comparison Python uses
on str values, hence the ascending key order of pandas groupby. -/
def strLe (a b : String) : Prop :=
  charListLe a.toList b.toList = true

instance : DecidableRel strLe := fun _ _ => inferInstanceAs (Decidable (_ = true))

instance : IsTotal String strLe where
  total a b := by
    have H : ∀ x y : List Char, charListLe x y = true ∨ charListLe y x = true := by
      intro x
      induction x with
      | nil => intro y; left; rfl
      | cons a as ih =>
        intro y
        cases y with
        | nil => right; rfl
        | cons b bs =>
          by_cases hab : a = b
          · subst hab
            rcases ih bs with h | h
            · left; simp [charListLe, h]
            · right; simp [charListLe, h]
          · rcases lt_or_gt_of_ne hab with h | h
            · left; simp [charListLe, hab, h]
            · right; simp [charListLe, Ne.symm hab, h]
    exact H a.toList b.toList

instance : IsTrans String strLe where
  trans a b c hab hbc := by
    have H : ∀ x y z : List Char, charListLe x y = true → charListLe y z = true →
        charListLe x z = true := by
      intro x
      induction x with
      | nil => intro y z _ _; rfl
      | cons a as ih =>
        intro y z h1 h2
        cases y with
        | nil => simp [charListLe] at h1
        | cons b bs =>
          cases z with
          | nil => simp [charListLe] at h2
          | cons c cs =>
            by_cases hab' : a = b
            · subst hab'
              by_cases hbc' : a = c
              · subst hbc'
                simp only [charListLe, if_pos rfl] at h1 h2 ⊢
                exact ih bs cs h1 h2
              · simp only [charListLe, if_pos rfl] at h1
                simp [charListLe, hbc'] at h2 ⊢
                exact h2
            · simp [charListLe, hab'] at h1
              by_cases hbc' : b = c
              · subst hbc'
                simp [charListLe, hab', h1]
              · simp [charListLe, hbc'] at h2
                have hac : a < c := lt_trans h1 h2
                simp [charListLe, ne_of_lt hac, hac]
    exact H a.toList b.toList c.toList hab hbc

instance : IsAntisymm String strLe where
  antisymm a b hab hba := by
    have H : ∀ x y : List Char, charListLe x y = true → charListLe y x = true → x = y := by
      intro x
      induction x with
      | nil =>
        intro y h1 h2
        cases y with
        | nil => rfl
        | cons b bs => simp [charListLe] at h2
      | cons a as ih =>
        intro y h1 h2
        cases y with
        | nil => simp [charListLe] at h1
        | cons b bs =>
          by_cases hab' : a = b
          · subst hab'
            simp only [charListLe, if_pos rfl] at h1 h2
            rw [ih bs h1 h2]
          · simp [charListLe, hab'] at h1
            simp [charListLe, Ne.symm hab'] at h2
            exact absurd h2 (lt_asymm h1)
    obtain ⟨la⟩ := a
    obtain ⟨lb⟩ := b
    exact congrArg String.mk (H la lb hab hba)

/-- One summary table (source lines 131-152): restrict to the rows of the
given payment type, group by the Full Name cell (rows with a missing key
are excluded, as pandas groupby drops NaN keys), sort the keys
ascending as groupby does, sum each group and render the totals. -/
def summarize (cols : List String) (rows : List Row) (pt : String) : List (String × String) :=
  (List.insertionSort strLe
      ((rows.filter (fun r => r "Payment Type" == some pt)).filterMap
        (fun r => r "Full Name"))).dedup.map
    (fun k =>
      (k, formatCurrency (pandasSum
        (((rows.filter (fun r => r "Payment Type" == some pt)).filter
            (fun r => r "Full Name" == some k)).map
          (fun r => (rowAmount cols r).getD .nan)))))

/-! ## The whole pipeline -/

/-- The three results of `process_dataframe`: the cleaned table (with the
helper column name appended), the numeric amount column, and the two
summary tables as (Full Name, formatted total) pairs. -/
structure ProcessOutput where
  cleaned : Table
  amounts : List PyFloat
  salary_summary : List (String × String)
  benefit_summary : List (String × String)

/-- Column-list effect of adding the Amount_numeric helper column. -/
def amountCols (cols : List String) : List String :=
  appendIfAbsent cols "Amount_numeric"

/-- Whether every remaining amount cell parses (astype(float) succeeds). -/
def allAmountsOk (t4 : Table) : Bool :=
  t4.rows.all (fun r => (rowAmount t4.cols r).isSome)

/-- The successful result of the pipeline. -/
def buildOutput (t4 : Table) : ProcessOutput :=
  { cleaned := ⟨amountCols t4.cols, t4.rows⟩
    amounts := t4.rows.map (fun r => (rowAmount t4.cols r).getD .nan)
    salary_summary := summarize t4.cols t4.rows "Salary"
    benefit_summary := summarize t4.cols t4.rows "Benefit" }

/-- The whole pipeline of source lines 20-154. `none` models the
ValueError raised when an Amount cell fails to parse as a float. -/
def process_dataframe (t : Table) : Option ProcessOutput :=
  if allAmountsOk (stage4 t) then some (buildOutput (stage4 t)) else none

/-- Build a row from an association list of present cells; every other
column reads as missing. -/
def rowOf (l : List (String × String)) : Row := fun c =>
  l.lookup c

/-! ## Concrete example tables -/

/-- Two Salary rows for Jane Doe, the summation example of the spec. -/
def janeT : Table :=
  ⟨["First Name", "Last Name", "Gl Account", "Amount"],
   [rowOf [("First Name", "Jane"), ("Last Name", "Doe"),
           ("Gl Account", "51000"), ("Amount", "$1,000.00")],
    rowOf [("First Name", "Jane"), ("Last Name", "Doe"),
           ("Gl Account", "51000"), ("Amount", "$234.56")]]⟩

/-- Rows with the classifier example codes: a padded Salary code, the
"0651000" code, and a missing code. -/
def glT : Table :=
  ⟨["First Name", "Last Name", "Gl Account", "Amount"],
   [rowOf [("First Name", "Ann"), ("Last Name", "Bee"),
           ("Gl Account", "0051000"), ("Amount", "$1.00")],
    rowOf [("First Name", "Ann"), ("Last Name", "Bee"),
           ("Gl Account", "0651000"), ("Amount", "$2.00")],
    rowOf [("First Name", "Ann"), ("Last Name", "Bee"), ("Amount", "$4.00")]]⟩

/-- A table with one grand-total row and one ordinary row. -/
def totalT : Table :=
  ⟨["Funds Center Name", "First Name", "Last Name", "Gl Account", "Amount"],
   [rowOf [("Funds Center Name", "Grand Total"), ("First Name", "X"),
           ("Last Name", "Y"), ("Gl Account", "51000"), ("Amount", "$9.00")],
    rowOf [("Funds Center Name", "Center A"), ("First Name", "Ann"),
           ("Last Name", "Bee"), ("Gl Account", "51000"), ("Amount", "$5.00")]]⟩

/-- A table whose Amount cell holds the literal text N/A. -/
def naT : Table :=
  ⟨["First Name", "Last Name", "Amount"],
   [rowOf [("First Name", "Ann"), ("Last Name", "Bee"), ("Amount", "N/A")]]⟩

/-- A table with both name columns and a preexisting Full Name column. -/
def overwriteT : Table :=
  ⟨["First Name", "Last Name", "Full Name"],
   [rowOf [("First Name", "Ann"), ("Last Name", "Bee"), ("Full Name", "Zed")]]⟩

/-- A table with only a preexisting Full Name column. -/
def fullNameOnlyT : Table :=
  ⟨["Full Name"], [rowOf [("Full Name", "Zed")]]⟩

/-- A table missing the Gl Account and Fund columns, with an extra
column unknown to the preferred list. -/
def fundlessT : Table :=
  ⟨["Funds Center", "First Name", "Last Name", "Amount", "Extra Col"],
   [rowOf [("Funds Center", "FC1"), ("First Name", "Ann"), ("Last Name", "Bee"),
           ("Amount", "$1.00"), ("Extra Col", "x")]]⟩

/-- A Salary row whose Amount cell is missing. -/
def nanRowT : Table :=
  ⟨["First Name", "Last Name", "Gl Account", "Amount"],
   [rowOf [("First Name", "Ann"), ("Last Name", "Bee"), ("Gl Account", "51000")]]⟩

/-- A group with one missing Amount cell and one of $5.00. -/
def nanMixT : Table :=
  ⟨["First Name", "Last Name", "Gl Account", "Amount"],
   [rowOf [("First Name", "Ann"), ("Last Name", "Bee"), ("Gl Account", "51000")],
    rowOf [("First Name", "Ann"), ("Last Name", "Bee"),
           ("Gl Account", "51000"), ("Amount", "$5.00")]]⟩

/-- Salary rows whose first-appearance order (Bob before Alice) differs
from the ascending order of the grouping key. -/
def orderT : Table :=
  ⟨["First Name", "Last Name", "Gl Account", "Amount"],
   [rowOf [("First Name", "Bob"), ("Last Name", "B"),
           ("Gl Account", "51000"), ("Amount", "$1.00")],
    rowOf [("First Name", "Alice"), ("Last Name", "A"),
           ("Gl Account", "51000"), ("Amount", "$2.00")]]⟩

/-! ## Structural lemmas about the pipeline -/

theorem stage4_rows (t : Table) :
    (stage4 t).rows =
      ((keptRows t).map (fullNameUpd t.cols)).map (paymentUpd (fullNameCols t.cols)) :=
  rfl

theorem stage4_cols (t : Table) :
    (stage4 t).cols = reorder_cols (paymentCols (fullNameCols t.cols)) :=
  rfl

theorem fullNameUpd_ne (cols : List String) (r : Row) {c : String}
    (h : c ≠ "Full Name") : fullNameUpd cols r c = r c := by
  simp [fullNameUpd, h]

theorem fullNameUpd_fn (cols : List String) (r : Row) :
    fullNameUpd cols r "Full Name" =
      (if "First Name" ∈ cols ∧ "Last Name" ∈ cols then
        some (((r "First Name").getD "") ++ " " ++ ((r "Last Name").getD ""))
      else if "Full Name" ∈ cols then r "Full Name"
      else some "") := by
  simp [fullNameUpd]

theorem paymentUpd_ne (cols : List String) (r : Row) {c : String}
    (h : c ≠ "Payment Type") : paymentUpd cols r c = r c := by
  simp [paymentUpd, h]

theorem paymentUpd_pt (cols : List String) (r : Row) :
    paymentUpd cols r "Payment Type" =
      some (if "Gl Account" ∈ cols then payment_type (r "Gl Account") else "Other") := by
  simp [paymentUpd]

theorem mem_appendIfAbsent {cols : List String} {c d : String} :
    c ∈ appendIfAbsent cols d ↔ c ∈ cols ∨ c = d := by
  unfold appendIfAbsent
  split
  · rename_i h
    constructor
    · exact Or.inl
    · rintro (hc | rfl)
      · exact hc
      · exact h
  · simp

theorem mem_fullNameCols (cols : List String) {c : String}
    (h1 : c ≠ "First Name") (h2 : c ≠ "Last Name") :
    c ∈ fullNameCols cols ↔ c ∈ cols ∨ c = "Full Name" := by
  unfold fullNameCols
  split_ifs with hb hf
  · simp [List.mem_filter, mem_appendIfAbsent, h1, h2]
  · constructor
    · exact Or.inl
    · rintro (hc | rfl)
      · exact hc
      · exact hf
  · simp

theorem mem_fullNameCols' (cols : List String) {c : String}
    (h1 : c ≠ "First Name") (h2 : c ≠ "Last Name") (h3 : c ≠ "Full Name") :
    c ∈ fullNameCols cols ↔ c ∈ cols := by
  rw [mem_fullNameCols cols h1 h2]
  simp [h3]

theorem fullName_mem_fullNameCols (cols : List String) :
    "Full Name" ∈ fullNameCols cols :=
  (mem_fullNameCols cols (by decide) (by decide)).2 (Or.inr rfl)

theorem firstName_not_mem_fullNameCols (cols : List String)
    (hb : "First Name" ∈ cols ∧ "Last Name" ∈ cols) :
    "First Name" ∉ fullNameCols cols := by
  unfold fullNameCols
  rw [if_pos hb]
  intro hm
  have := (List.mem_filter.1 hm).2
  simp at this

theorem lastName_not_mem_fullNameCols (cols : List String)
    (hb : "First Name" ∈ cols ∧ "Last Name" ∈ cols) :
    "Last Name" ∉ fullNameCols cols := by
  unfold fullNameCols
  rw [if_pos hb]
  intro hm
  have := (List.mem_filter.1 hm).2
  simp at this

theorem mem_paymentCols (cols : List String) {c : String} :
    c ∈ paymentCols cols ↔ c ∈ cols ∨ c = "Payment Type" :=
  mem_appendIfAbsent

theorem pt_mem_paymentCols (cols : List String) :
    "Payment Type" ∈ paymentCols cols :=
  (mem_paymentCols cols).2 (Or.inr rfl)

theorem mem_amountCols (cols : List String) {c : String} :
    c ∈ amountCols cols ↔ c ∈ cols ∨ c = "Amount_numeric" :=
  mem_appendIfAbsent

theorem foldl_ensure_subset (cols : List String) (names : List String) :
    ∀ base : List String, (∀ x ∈ base, x ∈ cols) →
      ∀ x ∈ names.foldl
        (fun acc c => if c ∉ acc ∧ c ∈ cols then acc ++ [c] else acc) base,
        x ∈ cols := by
  induction names with
  | nil =>
    intro base hb
    simpa using hb
  | cons d rest ih =>
    intro base hb
    simp only [List.foldl_cons]
    apply ih
    intro x hx
    split at hx
    · rename_i hcond
      rcases List.mem_append.1 hx with h | h
      · exact hb x h
      · rw [List.mem_singleton] at h
        subst h
        exact hcond.2
    · exact hb x hx

theorem ensure_cols_subset (cols : List String) :
    ∀ x ∈ ensure_cols cols, x ∈ cols := by
  apply foldl_ensure_subset
  intro x hx
  have := (List.mem_filter.1 hx).2
  simpa using this

theorem mem_reorder (cols : List String) {c : String} :
    c ∈ reorder_cols cols ↔ c ∈ cols := by
  unfold reorder_cols
  constructor
  · intro h
    rcases List.mem_append.1 h with h | h
    · exact ensure_cols_subset cols c h
    · exact (List.mem_filter.1 h).1
  · intro h
    by_cases he : c ∈ ensure_cols cols
    · exact List.mem_append.2 (Or.inl he)
    · exact List.mem_append.2 (Or.inr (List.mem_filter.2 ⟨h, by simpa using he⟩))

theorem mem_stage_cols (t : Table) {c : String}
    (h1 : c ≠ "First Name") (h2 : c ≠ "Last Name") (h3 : c ≠ "Full Name")
    (h4 : c ≠ "Payment Type") :
    c ∈ (stage4 t).cols ↔ c ∈ t.cols := by
  rw [stage4_cols, mem_reorder, mem_paymentCols]
  rw [mem_fullNameCols' t.cols h1 h2 h3]
  simp [h4]

theorem process_some_iff {t : Table} {o : ProcessOutput} :
    process_dataframe t = some o ↔
      allAmountsOk (stage4 t) = true ∧ o = buildOutput (stage4 t) := by
  unfold process_dataframe
  constructor
  · intro h
    split at h
    · rename_i hc
      exact ⟨hc, (Option.some.inj h).symm⟩
    · cases h
  · rintro ⟨hc, rfl⟩
    rw [if_pos hc]

theorem mem_summarize {cols : List String} {rows : List Row} {pt : String}
    {p : String × String} (h : p ∈ summarize cols rows pt) :
    ∃ r ∈ rows, r "Payment Type" = some pt ∧ r "Full Name" = some p.1 := by
  unfold summarize at h
  obtain ⟨k, hk, hpk⟩ := List.mem_map.1 h
  subst hpk
  rw [List.mem_dedup, (List.perm_insertionSort _ _).mem_iff] at hk
  obtain ⟨r, hr, hfn⟩ := List.mem_filterMap.1 hk
  obtain ⟨hrow, hbeq⟩ := List.mem_filter.1 hr
  refine ⟨r, hrow, ?_, hfn⟩
  simpa [beq_iff_eq] using hbeq

theorem sorted_summarize (cols : List String) (rows : List Row) (pt : String) :
    List.Sorted strLe ((summarize cols rows pt).map Prod.fst) := by
  unfold summarize
  rw [List.map_map]
  have hid : (Prod.fst ∘ fun k : String =>
      (k, formatCurrency (pandasSum
        (((rows.filter (fun r => r "Payment Type" == some pt)).filter
            (fun r => r "Full Name" == some k)).map
          (fun r => (rowAmount cols r).getD .nan))))) = id := rfl
  rw [hid, List.map_id]
  exact List.Pairwise.sublist (List.dedup_sublist _) (List.sorted_insertionSort _ _)

theorem perm_all_eq {α : Type} {l₁ l₂ : List α} (h : l₁.Perm l₂) (p : α → Bool) :
    l₁.all p = l₂.all p := by
  cases h1 : l₁.all p <;> cases h2 : l₂.all p
  · rfl
  · exfalso
    obtain ⟨x, hx, hnp⟩ := List.all_eq_false.1 h1
    exact hnp (List.all_eq_true.1 h2 x (h.subset hx))
  · exfalso
    obtain ⟨x, hx, hnp⟩ := List.all_eq_false.1 h2
    exact hnp (List.all_eq_true.1 h1 x (h.symm.subset hx))
  · rfl

theorem summarize_perm {cols : List String} {rows₁ rows₂ : List Row} (pt : String)
    (h : rows₁.Perm rows₂) : summarize cols rows₁ pt = summarize cols rows₂ pt := by
  unfold summarize
  have hsel : (rows₁.filter (fun r => r "Payment Type" == some pt)).Perm
      (rows₂.filter (fun r => r "Payment Type" == some pt)) := h.filter _
  have hnames := hsel.filterMap (fun r => r "Full Name")
  have hkeys :
      List.insertionSort strLe
        ((rows₁.filter (fun r => r "Payment Type" == some pt)).filterMap
          (fun r => r "Full Name"))
      = List.insertionSort strLe
        ((rows₂.filter (fun r => r "Payment Type" == some pt)).filterMap
          (fun r => r "Full Name")) := by
    exact List.eq_of_perm_of_sorted
      ((List.perm_insertionSort _ _).trans
        (hnames.trans (List.perm_insertionSort _ _).symm))
      (List.sorted_insertionSort _ _) (List.sorted_insertionSort _ _)
  rw [hkeys]
  apply List.map_congr_left
  intro k hk
  have hsum :
      pandasSum (((rows₁.filter (fun r => r "Payment Type" == some pt)).filter
          (fun r => r "Full Name" == some k)).map (fun r => (rowAmount cols r).getD .nan))
      = pandasSum (((rows₂.filter (fun r => r "Payment Type" == some pt)).filter
          (fun r => r "Full Name" == some k)).map (fun r => (rowAmount cols r).getD .nan)) := by
    unfold pandasSum
    exact List.Perm.sum_eq (List.Perm.filter _ (List.Perm.map _ (hsel.filter _)))
  rw [hsum]

/-! ## The claims -/

/-- C1: in every successful run, each cleaned row carries Payment Type
determined from its Gl Account cell by the classifier (string coercion,
leading-zero strip, "51" prefix means Salary, "52" means Benefit, all
else Other), and the whole column is "Other" when the Gl Account column
is absent; missing codes and the code "0651000" classify as Other. -/
theorem claim_C1 (t : Table) (o : ProcessOutput) (h : process_dataframe t = some o) :
    (∀ r ∈ o.cleaned.rows,
      r "Payment Type" =
        some (if "Gl Account" ∈ t.cols then payment_type (r "Gl Account") else "Other"))
    ∧ payment_type none = "Other"
    ∧ payment_type (some "0651000") = "Other"
    ∧ payment_type (some "0051000") = "Salary"
    ∧ payment_type (some "52010") = "Benefit" := by
  obtain ⟨-, rfl⟩ := process_some_iff.1 h
  refine ⟨?_, rfl, rfl, rfl, rfl⟩
  intro r hr
  rw [show (buildOutput (stage4 t)).cleaned.rows = (stage4 t).rows from rfl,
    stage4_rows] at hr
  obtain ⟨r₁, hr₁, rfl⟩ := List.mem_map.1 hr
  obtain ⟨r₀, hr₀, rfl⟩ := List.mem_map.1 hr₁
  rw [paymentUpd_pt, paymentUpd_ne _ _ (by decide), fullNameUpd_ne _ _ (by decide)]
  have hiff := mem_fullNameCols' t.cols
    (c := "Gl Account") (by decide) (by decide) (by decide)
  by_cases hGl : "Gl Account" ∈ t.cols
  · rw [if_pos (hiff.2 hGl), if_pos hGl]
  · rw [if_neg (fun hm => hGl (hiff.1 hm)), if_neg hGl]

/-- C1 witness: a concrete run with a padded Salary code, the 0651000
code and a missing code. -/
theorem claim_C1_witness :
    ∃ o, process_dataframe glT = some o ∧
      ∀ r ∈ o.cleaned.rows,
        r "Payment Type" =
          some (if "Gl Account" ∈ glT.cols then payment_type (r "Gl Account") else "Other") := by
  have hs : (process_dataframe glT).isSome = true := rfl
  obtain ⟨o, ho⟩ := Option.isSome_iff_exists.1 hs
  exact ⟨o, ho, (claim_C1 glT o ho).1⟩

/-- C2: in every successful run, the cleaned rows are exactly the
non-total input rows in their original relative order (their cells agree
on every column other than the derived Full Name and Payment Type), and
every entry of either summary table stems from a kept row of the matching
payment type, so total rows are absent from all three outputs. -/
theorem claim_C2 (t : Table) (o : ProcessOutput) (h : process_dataframe t = some o) :
    (∀ c : String, c ≠ "Full Name" → c ≠ "Payment Type" →
      o.cleaned.rows.map (fun r => r c) = (keptRows t).map (fun r => r c))
    ∧ (∀ p ∈ o.salary_summary, ∃ r ∈ o.cleaned.rows,
        r "Payment Type" = some "Salary" ∧ r "Full Name" = some p.1)
    ∧ (∀ p ∈ o.benefit_summary, ∃ r ∈ o.cleaned.rows,
        r "Payment Type" = some "Benefit" ∧ r "Full Name" = some p.1) := by
  obtain ⟨-, rfl⟩ := process_some_iff.1 h
  refine ⟨?_, ?_, ?_⟩
  · intro c hf hp
    show ((stage4 t).rows.map fun r => r c) = _
    rw [stage4_rows, List.map_map, List.map_map]
    apply List.map_congr_left
    intro r hr
    show paymentUpd _ (fullNameUpd _ r) c = r c
    rw [paymentUpd_ne _ _ hp, fullNameUpd_ne _ _ hf]
  · intro p hp
    exact mem_summarize hp
  · intro p hp
    exact mem_summarize hp

/-- C2 witness: a concrete run where the grand-total row disappears and
the kept row survives in place. -/
theorem claim_C2_witness :
    ∃ o, process_dataframe totalT = some o ∧
      o.cleaned.rows.map (fun r => r "Funds Center Name") = [some "Center A"] := by
  have hs : (process_dataframe totalT).isSome = true := rfl
  obtain ⟨o, ho⟩ := Option.isSome_iff_exists.1 hs
  refine ⟨o, ho, ?_⟩
  rw [(claim_C2 totalT o ho).1 "Funds Center Name" (by decide) (by decide)]
  rfl

/-- C3: when the Amount column is present and the cleaned Amount text of
some kept row fails to parse as a float, the whole run fails and no
output is produced. -/
theorem claim_C3 (t : Table) (hA : "Amount" ∈ t.cols)
    (hbad : ∃ r ∈ keptRows t, pyFloatParse (cleanAmount (cellStr (r "Amount"))) = none) :
    process_dataframe t = none := by
  obtain ⟨r, hr, hfail⟩ := hbad
  have hmem : paymentUpd (fullNameCols t.cols) (fullNameUpd t.cols r) ∈ (stage4 t).rows := by
    rw [stage4_rows]
    exact List.mem_map_of_mem _ (List.mem_map_of_mem _ hr)
  have hAmem : "Amount" ∈ (stage4 t).cols :=
    (mem_stage_cols t (by decide) (by decide) (by decide) (by decide)).2 hA
  have hnone :
      (rowAmount (stage4 t).cols (paymentUpd (fullNameCols t.cols) (fullNameUpd t.cols r))).isSome
        = false := by
    unfold rowAmount
    rw [if_pos hAmem, paymentUpd_ne _ _ (by decide), fullNameUpd_ne _ _ (by decide), hfail]
    rfl
  have hall : ¬ allAmountsOk (stage4 t) = true := by
    intro hAll
    have := List.all_eq_true.1 hAll _ hmem
    rw [hnone] at this
    cases this
  unfold process_dataframe
  rw [if_neg hall]

/-- C3 witness: the literal N/A amount makes the run fail. -/
theorem claim_C3_witness : process_dataframe naT = none := by
  apply claim_C3
  · decide
  · refine ⟨rowOf [("First Name", "Ann"), ("Last Name", "Bee"), ("Amount", "N/A")], ?_, rfl⟩
    have h : keptRows naT
        = [rowOf [("First Name", "Ann"), ("Last Name", "Bee"), ("Amount", "N/A")]] := rfl
    rw [h]
    exact List.mem_singleton_self _

/-- C4: when both name columns exist, every cleaned row carries
Full Name equal to first + " " + last with missing parts as empty strings
(a missing part keeps the separating space), the two source columns are
gone from the output column set, and identical name pairs give identical
Full Name values since the value is a function of the two cells; when
neither the name pair nor a Full Name column exists, every row gets the
empty string. -/
theorem claim_C4 :
    (∀ (t : Table) (o : ProcessOutput), "First Name" ∈ t.cols → "Last Name" ∈ t.cols →
      process_dataframe t = some o →
      o.cleaned.rows.map (fun r => r "Full Name") =
        (keptRows t).map (fun r =>
          some (((r "First Name").getD "") ++ " " ++ ((r "Last Name").getD "")))
      ∧ "First Name" ∉ o.cleaned.cols ∧ "Last Name" ∉ o.cleaned.cols)
    ∧ (∀ (t : Table) (o : ProcessOutput),
        ¬("First Name" ∈ t.cols ∧ "Last Name" ∈ t.cols) → "Full Name" ∉ t.cols →
        process_dataframe t = some o →
        ∀ r ∈ o.cleaned.rows, r "Full Name" = some "") := by
  constructor
  · intro t o h1 h2 h
    obtain ⟨-, rfl⟩ := process_some_iff.1 h
    refine ⟨?_, ?_, ?_⟩
    · show ((stage4 t).rows.map fun r => r "Full Name") = _
      rw [stage4_rows, List.map_map, List.map_map]
      apply List.map_congr_left
      intro r hr
      show paymentUpd (fullNameCols t.cols) (fullNameUpd t.cols r) "Full Name" = _
      rw [paymentUpd_ne _ _ (by decide), fullNameUpd_fn, if_pos ⟨h1, h2⟩]
    · intro hmem
      rcases (mem_amountCols _).1 hmem with hmem | hmem
      · rcases (mem_paymentCols _).1 ((mem_reorder _).1 hmem) with hmem | hmem
        · exact firstName_not_mem_fullNameCols t.cols ⟨h1, h2⟩ hmem
        · exact absurd hmem (by decide)
      · exact absurd hmem (by decide)
    · intro hmem
      rcases (mem_amountCols _).1 hmem with hmem | hmem
      · rcases (mem_paymentCols _).1 ((mem_reorder _).1 hmem) with hmem | hmem
        · exact lastName_not_mem_fullNameCols t.cols ⟨h1, h2⟩ hmem
        · exact absurd hmem (by decide)
      · exact absurd hmem (by decide)
  · intro t o hnb hfn h
    obtain ⟨-, rfl⟩ := process_some_iff.1 h
    intro r hr
    rw [show (buildOutput (stage4 t)).cleaned.rows = (stage4 t).rows from rfl,
      stage4_rows] at hr
    obtain ⟨r₁, hr₁, rfl⟩ := List.mem_map.1 hr
    obtain ⟨r₀, hr₀, rfl⟩ := List.mem_map.1 hr₁
    rw [paymentUpd_ne _ _ (by decide), fullNameUpd_fn, if_neg hnb, if_neg hfn]

/-- C4 witness: the Jane Doe table, where both rows get the same
Full Name and the source name columns disappear. -/
theorem claim_C4_witness :
    ∃ o, process_dataframe janeT = some o ∧
      o.cleaned.rows.map (fun r => r "Full Name") = [some "Jane Doe", some "Jane Doe"]
      ∧ "First Name" ∉ o.cleaned.cols := by
  have hs : (process_dataframe janeT).isSome = true := rfl
  obtain ⟨o, ho⟩ := Option.isSome_iff_exists.1 hs
  obtain ⟨hrows, hfst, -⟩ := claim_C4.1 janeT o (by decide) (by decide) ho
  refine ⟨o, ho, ?_, hfst⟩
  rw [hrows]
  rfl

/-- C5 counterexample: a table holding First Name, Last Name and a
Full Name column; the preexisting Full Name value Zed is overwritten with
the concatenation Ann Bee, so the claim that an existing Full Name column
is always left unchanged is false. -/
theorem claim_C5_counterexample :
    (process_dataframe overwriteT).map (fun o => o.cleaned.rows.map (fun r => r "Full Name"))
      = some [some "Ann Bee"]
    ∧ overwriteT.rows.map (fun r => r "Full Name") = [some "Zed"]
    ∧ (some "Ann Bee" : Cell) ≠ some "Zed" := by
  exact ⟨by decide, by decide, by decide⟩

/-- C5 amended: when a Full Name column exists and the table does not
contain both First Name and Last Name, the Full Name values of the kept
rows pass through unchanged. -/
theorem claim_C5 (t : Table) (o : ProcessOutput) (hfn : "Full Name" ∈ t.cols)
    (hnb : ¬("First Name" ∈ t.cols ∧ "Last Name" ∈ t.cols))
    (h : process_dataframe t = some o) :
    o.cleaned.rows.map (fun r => r "Full Name") = (keptRows t).map (fun r => r "Full Name") := by
  obtain ⟨-, rfl⟩ := process_some_iff.1 h
  show ((stage4 t).rows.map fun r => r "Full Name") = _
  rw [stage4_rows, List.map_map, List.map_map]
  apply List.map_congr_left
  intro r hr
  show paymentUpd (fullNameCols t.cols) (fullNameUpd t.cols r) "Full Name" = r "Full Name"
  rw [paymentUpd_ne _ _ (by decide), fullNameUpd_fn, if_neg hnb, if_pos hfn]

/-- C5 witness: a table with only a Full Name column keeps its value. -/
theorem claim_C5_witness :
    ∃ o, process_dataframe fullNameOnlyT = some o ∧
      o.cleaned.rows.map (fun r => r "Full Name") = [some "Zed"] := by
  have hs : (process_dataframe fullNameOnlyT).isSome = true := rfl
  obtain ⟨o, ho⟩ := Option.isSome_iff_exists.1 hs
  refine ⟨o, ho, ?_⟩
  rw [claim_C5 fullNameOnlyT o (by decide) (by decide) ho]
  rfl

/-- C6: the two Jane Doe Salary rows of amounts $1,000.00 and $234.56
produce the single Salary summary entry Jane Doe with $1,234.56, rendered
with a leading dollar sign, comma grouping and two decimals; the Benefit
summary is empty. -/
theorem claim_C6 :
    (process_dataframe janeT).map (fun o => (o.salary_summary, o.benefit_summary))
      = some ([("Jane Doe", "$1,234.56")], []) := by decide

/-- C7: in every successful run (on a table without a preexisting helper
column), the cleaned column order is the present preferred columns in
preferred order, then the remaining columns in their original relative
order, then the numeric helper column; and the table missing Gl Account
and Fund processes successfully, with Fund absent from the output order
and every row classified Other. -/
theorem claim_C7 :
    (∀ (t : Table) (o : ProcessOutput), "Amount_numeric" ∉ t.cols →
      process_dataframe t = some o →
      o.cleaned.cols =
        columns_in_df (stage3 t).cols
        ++ (stage3 t).cols.filter (fun c => decide (c ∉ desired_columns))
        ++ ["Amount_numeric"])
    ∧ (process_dataframe fundlessT).map
        (fun o => (o.cleaned.cols, decide ("Fund" ∈ o.cleaned.cols),
          o.cleaned.rows.map (fun r => r "Payment Type")))
      = some (["Funds Center", "Full Name", "Payment Type", "Amount", "Extra Col",
          "Amount_numeric"], false, [some "Other"]) := by
  constructor
  · intro t o hAN h
    obtain ⟨-, rfl⟩ := process_some_iff.1 h
    have hfncd : "Full Name" ∈ columns_in_df (paymentCols (fullNameCols t.cols)) :=
      List.mem_filter.2 ⟨by decide,
        by simpa using (mem_paymentCols _).2 (Or.inl (fullName_mem_fullNameCols _))⟩
    have hptcd : "Payment Type" ∈ columns_in_df (paymentCols (fullNameCols t.cols)) :=
      List.mem_filter.2 ⟨by decide, by simpa using pt_mem_paymentCols (fullNameCols t.cols)⟩
    have hensure : ensure_cols (paymentCols (fullNameCols t.cols))
        = columns_in_df (paymentCols (fullNameCols t.cols)) := by
      unfold ensure_cols
      simp only [List.foldl_cons, List.foldl_nil]
      have h1 : ¬("Full Name" ∉ columns_in_df (paymentCols (fullNameCols t.cols))
          ∧ "Full Name" ∈ paymentCols (fullNameCols t.cols)) :=
        fun hc => hc.1 hfncd
      rw [if_neg h1]
      have h2 : ¬("Payment Type" ∉ columns_in_df (paymentCols (fullNameCols t.cols))
          ∧ "Payment Type" ∈ paymentCols (fullNameCols t.cols)) :=
        fun hc => hc.1 hptcd
      rw [if_neg h2]
    have hAN3 : "Amount_numeric" ∉ paymentCols (fullNameCols t.cols) := by
      intro hm
      rcases (mem_paymentCols _).1 hm with hm | hm
      · exact hAN ((mem_fullNameCols' t.cols (by decide) (by decide) (by decide)).1 hm)
      · exact absurd hm (by decide)
    have hANr : "Amount_numeric" ∉ reorder_cols (paymentCols (fullNameCols t.cols)) :=
      fun hm => hAN3 ((mem_reorder _).1 hm)
    have hfilters : (paymentCols (fullNameCols t.cols)).filter
          (fun c => decide (c ∉ ensure_cols (paymentCols (fullNameCols t.cols))))
        = (paymentCols (fullNameCols t.cols)).filter
          (fun c => decide (c ∉ desired_columns)) := by
      apply List.filter_congr
      intro x hx
      rw [decide_eq_decide]
      apply not_congr
      rw [hensure]
      constructor
      · intro hm
        exact (List.mem_filter.1 hm).1
      · intro hm
        exact List.mem_filter.2 ⟨hm, by simpa using hx⟩
    show amountCols (reorder_cols (paymentCols (fullNameCols t.cols))) = _
    rw [show (stage3 t).cols = paymentCols (fullNameCols t.cols) from rfl]
    unfold amountCols appendIfAbsent
    rw [if_neg hANr]
    unfold reorder_cols
    rw [hfilters, hensure, List.append_assoc]
  · decide

/-- C7 witness: the general column-order equation instantiated at the
fundless table. -/
theorem claim_C7_witness :
    ∃ o, process_dataframe fundlessT = some o ∧
      o.cleaned.cols =
        columns_in_df (stage3 fundlessT).cols
        ++ (stage3 fundlessT).cols.filter (fun c => decide (c ∉ desired_columns))
        ++ ["Amount_numeric"] := by
  have hs : (process_dataframe fundlessT).isSome = true := rfl
  obtain ⟨o, ho⟩ := Option.isSome_iff_exists.1 hs
  exact ⟨o, ho, claim_C7.1 fundlessT o (by decide) ho⟩

/-- C9 counterexample: a Salary row whose Amount cell is missing; the run
succeeds, but the group total is rendered $0.00 (pandas groupby sum skips
NaN and sums an all-NaN group to zero), not $nan as the claim states. -/
theorem claim_C9_counterexample :
    (process_dataframe nanRowT).map (fun o => o.salary_summary)
      = some [("Ann Bee", "$0.00")]
    ∧ ("$0.00" : String) ≠ "$nan" :=
  ⟨by decide, by decide⟩

/-- C9 amended: when the Amount column is present and a kept row has a
missing Amount cell, the run does not fail: the missing cell parses to
NaN, and NaN amounts are skipped by the grouped sum, so a group holding
such a row totals the sum of its non-missing amounts ($0.00 when every
amount is missing), never $nan. -/
theorem claim_C9 :
    pyFloatParse (cleanAmount (cellStr none)) = some PyFloat.nan
    ∧ (∀ l : List PyFloat, pandasSum (PyFloat.nan :: l) = pandasSum l)
    ∧ (process_dataframe nanMixT).map (fun o => o.salary_summary)
      = some [("Ann Bee", "$5.00")] := by
  refine ⟨rfl, ?_, by decide⟩
  intro l
  simp [pandasSum, PyFloat.isNan]

/-- C10: in every successful run, both summary tables are ordered by the
grouping key ascending (lexicographically), and on a table whose rows
appear as Bob before Alice the summary lists Alice before Bob, so the
order is not first-appearance order. -/
theorem claim_C10 :
    (∀ (t : Table) (o : ProcessOutput), process_dataframe t = some o →
      List.Sorted strLe (o.salary_summary.map Prod.fst)
      ∧ List.Sorted strLe (o.benefit_summary.map Prod.fst))
    ∧ (process_dataframe orderT).map (fun o => o.salary_summary.map Prod.fst)
      = some ["Alice A", "Bob B"]
    ∧ orderT.rows.map (fun r => r "First Name") = [some "Bob", some "Alice"] := by
  refine ⟨?_, by decide, by decide⟩
  intro t o h
  obtain ⟨-, rfl⟩ := process_some_iff.1 h
  exact ⟨sorted_summarize _ _ _, sorted_summarize _ _ _⟩

/-- C10 witness: the sortedness statement instantiated at the concrete
table whose input order is Bob before Alice. -/
theorem claim_C10_witness :
    ∃ o, process_dataframe orderT = some o ∧
      List.Sorted strLe (o.salary_summary.map Prod.fst) := by
  have hs : (process_dataframe orderT).isSome = true := rfl
  obtain ⟨o, ho⟩ := Option.isSome_iff_exists.1 hs
  exact ⟨o, ho, (claim_C10.1 orderT o ho).1⟩

end SalaryApp
